import Mathlib

/-!
Verification of the constraint-driven article transformation and validation
engine of the `creativeia` repository, against its natural-language
specification.

The Python sources are shallowly embedded: each relevant routine of
`src/publisher/publication_manager.py`, `src/generator/seo_optimizer.py`
and `src/review/review_manager.py` is translated into an executable Lean
function over `String` / `List Char`.  Text is modelled as a list of
Unicode code points (matching Python `str` indexing and `len`); ASCII
case folding is used (all concrete inputs in theorems are ASCII, and no
proved statement depends on the case table beyond ASCII).
-/

set_option maxHeartbeats 1000000
set_option maxRecDepth 4000

namespace CreativeIA

/-! ### Basic character and string helpers shared by all embeddings -/

/-- ASCII lower casing of one character (Python `str.lower` restricted to
the ASCII range; accented characters are handled separately where the
source handles them explicitly). -/
def lowerChar (c : Char) : Char :=
  if 'A' ≤ c ∧ c ≤ 'Z' then Char.ofNat (c.toNat + 32) else c

/-- ASCII upper casing of one character. -/
def upperChar (c : Char) : Char :=
  if 'a' ≤ c ∧ c ≤ 'z' then Char.ofNat (c.toNat - 32) else c

/-- Whether a character is an ASCII letter (a "cased" character for the
purposes of Python `str.title`). -/
def isAsciiAlpha (c : Char) : Bool :=
  ('a' ≤ c ∧ c ≤ 'z') ∨ ('A' ≤ c ∧ c ≤ 'Z')

/-- Python whitespace class (`\s`, and the separators used by `str.split`
and `str.strip`). -/
def isWs (c : Char) : Bool :=
  c = ' ' ∨ c = '\n' ∨ c = '\t' ∨ c = '\r' ∨ c = '\x0b' ∨ c = '\x0c'

/-- Lower casing of a character list. -/
def lowerL (cs : List Char) : List Char := cs.map lowerChar

/-- Python `str.lower` (ASCII model). -/
def lowerStr (s : String) : String := ⟨lowerL s.data⟩

/-- Auxiliary state-passing pass of `titleCaseL`: `prevCased` records
whether the previous character was a letter. -/
def titleCaseAux : Bool → List Char → List Char
  | _, [] => []
  | prevCased, c :: cs =>
    if isAsciiAlpha c then
      (if prevCased then lowerChar c else upperChar c) :: titleCaseAux true cs
    else
      c :: titleCaseAux false cs

/-- Python `str.title`: the first letter of every alphabetic run is upper
cased and the rest lower cased. -/
def titleCaseL (cs : List Char) : List Char := titleCaseAux false cs

/-- Python `str.title` on strings. -/
def titleStr (s : String) : String := ⟨titleCaseL s.data⟩

/-- Python `str.strip()` on a character list: drop leading and trailing
whitespace. -/
def stripWsL (cs : List Char) : List Char :=
  ((cs.dropWhile isWs).reverse.dropWhile isWs).reverse

/-- Python `str.strip()` on strings. -/
def stripStr (s : String) : String := ⟨stripWsL s.data⟩

/-- Python `str.strip(chars)` for an explicit character set. -/
def stripCharsL (p : Char → Bool) (cs : List Char) : List Char :=
  ((cs.dropWhile p).reverse.dropWhile p).reverse

/-- Python substring test `needle in hay` on character lists (an empty
needle is contained in everything, as in Python). -/
def containsSubL (hay needle : List Char) : Bool :=
  hay.tails.any (fun t => needle.isPrefixOf t)

/-- Python substring test `needle in hay` on strings. -/
def containsSub (hay needle : String) : Bool := containsSubL hay.data needle.data

/-- Fuelled core of `countSubL`: Python `str.count`, counting
non-overlapping occurrences left to right. -/
def countSubAux (needle : List Char) : Nat → List Char → Nat
  | 0, _ => 0
  | _, [] => 0
  | fuel + 1, c :: rest =>
    if needle.isPrefixOf (c :: rest) then
      1 + countSubAux needle fuel ((c :: rest).drop needle.length)
    else
      countSubAux needle fuel rest

/-- Python `hay.count(needle)` for a non-empty needle (the sources never
count an empty needle). -/
def countSubL (hay needle : List Char) : Nat :=
  countSubAux needle hay.length hay

/-- Python `hay.count(needle)` on strings. -/
def countSub (hay needle : String) : Nat := countSubL hay.data needle.data

/-- Fuelled core of `splitWsL` (Python `str.split()` with no argument:
split on runs of whitespace, no empty fields). -/
def splitWsAux : Nat → List Char → List (List Char)
  | 0, _ => []
  | fuel + 1, cs =>
    let rest := cs.dropWhile isWs
    match rest with
    | [] => []
    | _ :: _ =>
      rest.takeWhile (fun c => ¬ isWs c) :: splitWsAux fuel (rest.dropWhile (fun c => ¬ isWs c))

/-- Python `str.split()` on a character list. -/
def splitWsL (cs : List Char) : List (List Char) := splitWsAux (cs.length + 1) cs

/-- Python `len(s.split())`: the whitespace-separated word count. -/
def wordCount (s : String) : Nat := (splitWsL s.data).length

/-- Locate the first occurrence of a character: returns the segments
before and after it. -/
def splitAtFirst (target : Char) : List Char → Option (List Char × List Char)
  | [] => none
  | c :: cs =>
    if c = target then some ([], cs)
    else
      match splitAtFirst target cs with
      | none => none
      | some (pre, post) => some (c :: pre, post)

/-- Python `re.sub(r'<[^>]+>', '', text)`: drop every maximal
`<`…`>` group that contains at least one character between the brackets;
a `<` with no later `>` (or immediately followed by `>`) is kept, exactly
as the regular expression fails to match there. -/
def stripTagsAux : Nat → List Char → List Char
  | 0, cs => cs
  | fuel + 1, cs =>
    match cs with
    | [] => []
    | c :: rest =>
      if c = '<' then
        match splitAtFirst '>' rest with
        | some (pre, post) =>
          if pre = [] then c :: stripTagsAux fuel rest
          else stripTagsAux fuel post
        | none => c :: stripTagsAux fuel rest
      else c :: stripTagsAux fuel rest

/-- HTML-tag stripping as performed by `re.sub(r'<[^>]+>', '', ...)`
throughout the sources. -/
def stripTagsL (cs : List Char) : List Char := stripTagsAux cs.length cs

/-- HTML-tag stripping on strings. -/
def stripTags (s : String) : String := ⟨stripTagsL s.data⟩

/-! ### `ReviewManager` (src/review/review_manager.py): deduplication -/

/-- The fields of an article record that the review-manager dedup logic
reads (`article_data.get('titulo','')`, `article_data.get('conteudo','')`). -/
structure ReviewArticle where
  titulo : String
  conteudo : String
deriving DecidableEq, Repr

/-- The string that `_calculate_content_hash` feeds to MD5:
`f"{titulo}{conteudo[:200] if conteudo else ''}"` (review_manager.py,
lines 177–184).  The MD5 step itself is kept abstract: every claim about
the fingerprint is a claim about what is hashed. -/
def calculate_content_hash_input (a : ReviewArticle) : String :=
  a.titulo ++ (if a.conteudo ≠ "" then ⟨a.conteudo.data.take 200⟩ else "")

/-- Modelled from the spec: the spec's `ContentFingerprint` input,
`title + first 200 chars of stripped body` ("stripped" = markup removed).
This definition follows the spec's words and exists only to be compared
with `calculate_content_hash_input`, which is translated from the code. -/
def fingerprint_input_spec (a : ReviewArticle) : String :=
  a.titulo ++ ⟨(stripTags a.conteudo).data.take 200⟩

/-- One persisted row of the `articles` table as read by
`_is_duplicate_article` (title column and content-hash column). -/
structure ArticleRow where
  titulo : String
  content_hash : String
deriving DecidableEq, Repr

/-- `_is_duplicate_article` (review_manager.py, lines 133–165).  The
SQLite connection/lookup is modelled by an `Except`-value: `.error`
means the store is unreachable or the query raised, `.ok rows` is the
persisted table.  `md5` is the (abstract) hash function applied to
`calculate_content_hash_input`.  On any exception the Python code logs
and `return False`. -/
def is_duplicate_article (md5 : String → String)
    (db : Except Unit (List ArticleRow)) (a : ReviewArticle) : Bool :=
  match db with
  | .error _ => false
  | .ok rows =>
    let content_hash := md5 (calculate_content_hash_input a)
    if rows.any (fun r => r.content_hash = content_hash) then true
    else if a.titulo ≠ "" ∧ rows.any (fun r => r.titulo = a.titulo) then true
    else false

/-! ### Theorems for claims C2 and C3 -/

/-- C2 (counterexample): with the persisted store unreachable (the SQLite
connection raises), `_is_duplicate_article` returns `false` — exactly the
"not a duplicate" answer — rather than surfacing an error to the caller.
This refutes the claim that a store failure "surfaces a distinct error
and never returns the 'not a duplicate' result". -/
theorem is_duplicate_article_fails_open_cex :
    is_duplicate_article id (.error ()) ⟨"Impressora HP", "<p>conteudo</p>"⟩ = false := by
  rfl

/-- C2 (amended): when the persisted store is unreachable or the lookup
raises, `_is_duplicate_article` catches the exception and returns
`False`, i.e. it reports "not a duplicate" (fails open); no error reaches
the caller, whose only channel is the boolean result. -/
theorem is_duplicate_article_error_returns_false
    (md5 : String → String) (e : Unit) (a : ReviewArticle) :
    is_duplicate_article md5 (.error e) a = false := by
  rfl

/-- C3 (counterexample): the fingerprint input of the code differs from
the spec's "title + first 200 chars of stripped body" on an article whose
body carries markup: the code hashes the raw body, tags included. -/
theorem content_hash_input_not_stripped_cex :
    calculate_content_hash_input ⟨"T", "<p>abc</p>"⟩ ≠
      fingerprint_input_spec ⟨"T", "<p>abc</p>"⟩ := by
  decide

/-- C3 (amended): `_calculate_content_hash` hashes
`title ++ first 200 characters of the raw body` — the body's markup is
not stripped before hashing. -/
theorem content_hash_input_is_raw (a : ReviewArticle) :
    calculate_content_hash_input a = a.titulo ++ ⟨a.conteudo.data.take 200⟩ := by
  unfold calculate_content_hash_input
  by_cases h : a.conteudo = ""
  · have hd : a.conteudo.data = [] := by
      have := congrArg String.data h
      simpa using this
    simp [h, hd]
  · simp [h]

/-! ### `PublicationManager._optimize_slug_with_keyphrase`
(src/publisher/publication_manager.py, lines 385–426) -/

/-- The explicit accent-transliteration table of
`_optimize_slug_with_keyphrase` (`re.sub(r'[àáâãäå]','a',...)` etc.),
applied character by character. -/
def accentFold (c : Char) : Char :=
  if c = 'à' ∨ c = 'á' ∨ c = 'â' ∨ c = 'ã' ∨ c = 'ä' ∨ c = 'å' then 'a'
  else if c = 'è' ∨ c = 'é' ∨ c = 'ê' ∨ c = 'ë' then 'e'
  else if c = 'ì' ∨ c = 'í' ∨ c = 'î' ∨ c = 'ï' then 'i'
  else if c = 'ò' ∨ c = 'ó' ∨ c = 'ô' ∨ c = 'õ' ∨ c = 'ö' then 'o'
  else if c = 'ù' ∨ c = 'ú' ∨ c = 'û' ∨ c = 'ü' then 'u'
  else if c = 'ç' then 'c'
  else if c = 'ñ' then 'n'
  else c

/-- Characters kept by `re.sub(r'[^a-z0-9\s-]', '', slug)`. -/
def isSlugKeep (c : Char) : Bool :=
  ('a' ≤ c ∧ c ≤ 'z') ∨ ('0' ≤ c ∧ c ≤ '9') ∨ isWs c ∨ c = '-'

/-- The character set `[a-z0-9-]` of a well-formed slug. -/
def isSlugChar (c : Char) : Bool :=
  ('a' ≤ c ∧ c ≤ 'z') ∨ ('0' ≤ c ∧ c ≤ '9') ∨ c = '-'

/-- Fuelled core of `collapseRuns`; at every call site the fuel is the
input length, which is sufficient (each step consumes at least one
character), so the function agrees with the regular expression. -/
def collapseRunsAux (p : Char → Bool) : Nat → List Char → List Char
  | 0, _ => []
  | _, [] => []
  | fuel + 1, c :: rest =>
    if p c then '-' :: collapseRunsAux p fuel (rest.dropWhile p)
    else c :: collapseRunsAux p fuel rest

/-- `re.sub(r'X+', '-', ...)` for a character class `X` given by `p`:
every maximal run of `p`-characters becomes a single hyphen. -/
def collapseRuns (p : Char → Bool) (cs : List Char) : List Char :=
  collapseRunsAux p cs.length cs

/-- Fuelled core of `splitChar` (Python `str.split(c)` with an explicit
single-character separator, keeping empty fields); fuel = length + 1
always suffices. -/
def splitCharAux (t : Char) : Nat → List Char → List (List Char)
  | 0, cs => [cs]
  | fuel + 1, cs =>
    match splitAtFirst t cs with
    | none => [cs]
    | some (pre, post) => pre :: splitCharAux t fuel post

/-- Python `s.split(c)` for a single-character separator. -/
def splitChar (t : Char) (cs : List Char) : List (List Char) :=
  splitCharAux t (cs.length + 1) cs

/-- Python `slug.split('-')` (keeps empty fields, as Python does). -/
def splitDash (cs : List Char) : List (List Char) := splitCharAux '-' (cs.length + 1) cs

/-- Python `'-'.join(words)`. -/
def joinDash : List (List Char) → List Char
  | [] => []
  | [w] => w
  | w :: ws => w ++ '-' :: joinDash ws

/-- Fuelled core of the
`while len('-'.join(words)) > 50 and len(words) > 2: words.pop()` loop of
`_optimize_slug_with_keyphrase`; fuel = number of words suffices since
every iteration pops one word. -/
def popWhileLongAux : Nat → List (List Char) → List (List Char)
  | 0, ws => ws
  | fuel + 1, ws =>
    if 50 < (joinDash ws).length ∧ 2 < ws.length then popWhileLongAux fuel ws.dropLast
    else ws

/-- The word-popping loop of `_optimize_slug_with_keyphrase`. -/
def popWhileLong (ws : List (List Char)) : List (List Char) :=
  popWhileLongAux ws.length ws

/-- The slug produced before the final `slug or …` fallback: lowercase,
transliterate accents, drop everything outside `[a-z0-9\s-]`, collapse
whitespace then hyphen runs, strip outer hyphens, and pop trailing words
while the slug is over 50 characters. -/
def slug_normalize (kp : String) : List Char :=
  let slug1 := (lowerL kp.data).map accentFold
  let slug2 := slug1.filter isSlugKeep
  let slug3 := collapseRuns isWs slug2
  let slug4 := collapseRuns (fun c => c = '-') slug3
  let slug5 := stripCharsL (fun c => c = '-') slug4
  if slug5.length > 50 then joinDash (popWhileLong (splitDash slug5))
  else slug5

/-- `_optimize_slug_with_keyphrase(text, focus_keyphrase)`
(publication_manager.py, lines 385–426).  Note that the body never reads
`text`: the slug is built from the keyphrase alone.  The final
`return slug or focus_keyphrase.replace(' ', '-')` falls back to the raw
keyphrase with spaces replaced by hyphens when the normalized slug is
empty. -/
def optimize_slug_with_keyphrase (text kp : String) : String :=
  let _ := text
  let s := slug_normalize kp
  if s = [] then ⟨kp.data.map (fun c => if c = ' ' then '-' else c)⟩ else ⟨s⟩

/-! Sanity checks of the slug embedding against the Python behaviour. -/

example :
    optimize_slug_with_keyphrase "x" "Impressora HP LaserJet Pro!" =
      "impressora-hp-laserjet-pro" := by decide

example : optimize_slug_with_keyphrase "x" "café açúcar" = "cafe-acucar" := by decide

example :
    optimize_slug_with_keyphrase "x"
      "impressora multifuncional laser colorida rapida economica barata" =
      "impressora-multifuncional-laser-colorida-rapida" := by decide

/-! ### Character-set lemmas for the slug pipeline -/

theorem all_of_dropWhile (p q : Char → Bool) (cs : List Char) (h : cs.all q = true) :
    (cs.dropWhile p).all q = true := by
  rw [List.all_eq_true] at h ⊢
  intro x hx
  exact h x ((List.dropWhile_sublist p).subset hx)

theorem all_of_stripChars (p q : Char → Bool) (cs : List Char) (h : cs.all q = true) :
    (stripCharsL p cs).all q = true := by
  unfold stripCharsL
  rw [List.all_eq_true] at h ⊢
  intro x hx
  rw [List.mem_reverse] at hx
  have hx2 := (List.dropWhile_sublist p).subset hx
  rw [List.mem_reverse] at hx2
  exact h x ((List.dropWhile_sublist p).subset hx2)

theorem collapseRunsAux_all (p q : Char → Bool) (hdash : q '-' = true) :
    ∀ (fuel : Nat) (cs : List Char),
      (∀ c ∈ cs, p c = false → q c = true) →
      (collapseRunsAux p fuel cs).all q = true := by
  intro fuel
  induction fuel with
  | zero => intro cs _; simp [collapseRunsAux]
  | succ n ih =>
    intro cs h
    match cs with
    | [] => simp [collapseRunsAux]
    | c :: rest =>
      simp only [collapseRunsAux]
      by_cases hc : p c = true
      · simp only [hc, if_true, List.all_cons, hdash, Bool.true_and]
        apply ih
        intro x hx
        exact h x (List.mem_cons_of_mem c ((List.dropWhile_sublist p).subset hx))
      · have hc' : p c = false := by simpa using hc
        simp only [hc', Bool.false_eq_true, if_false, List.all_cons, Bool.and_eq_true]
        refine And.intro (h c (List.mem_cons_self c rest) hc') ?_
        apply ih
        intro x hx
        exact h x (List.mem_cons_of_mem c hx)

theorem collapseRuns_all (p q : Char → Bool) (hdash : q '-' = true)
    (cs : List Char) (h : ∀ c ∈ cs, p c = false → q c = true) :
    (collapseRuns p cs).all q = true :=
  collapseRunsAux_all p q hdash cs.length cs h

theorem splitAtFirst_eq_append {t : Char} :
    ∀ {cs pre post : List Char}, splitAtFirst t cs = some (pre, post) →
      cs = pre ++ t :: post := by
  intro cs
  induction cs with
  | nil => intro pre post h; simp [splitAtFirst] at h
  | cons c cs ih =>
    intro pre post h
    simp only [splitAtFirst] at h
    split at h
    · rename_i hc
      cases h
      simp [hc]
    · cases hrec : splitAtFirst t cs with
      | none => rw [hrec] at h; simp at h
      | some pr =>
        rw [hrec] at h
        cases pr with
        | mk pre1 post1 =>
          simp at h
          obtain ⟨h1, h2⟩ := h
          have hcs := ih hrec
          rw [← h1, ← h2]
          simpa using congrArg (c :: ·) hcs

theorem splitCharAux_all (t : Char) (q : Char → Bool) :
    ∀ (fuel : Nat) (cs : List Char), cs.all q = true →
      ∀ w ∈ splitCharAux t fuel cs, w.all q = true := by
  intro fuel
  induction fuel with
  | zero =>
    intro cs h w hw
    simp [splitCharAux] at hw
    subst hw; exact h
  | succ n ih =>
    intro cs h w hw
    simp only [splitCharAux] at hw
    cases hsp : splitAtFirst t cs with
    | none =>
      rw [hsp] at hw
      simp at hw
      subst hw; exact h
    | some pr =>
      rw [hsp] at hw
      cases pr with
      | mk pre post =>
        have hcs := splitAtFirst_eq_append hsp
        rw [hcs, List.all_append, List.all_cons] at h
        simp only [Bool.and_eq_true] at h
        simp only [List.mem_cons] at hw
        cases hw with
        | inl hwpre => subst hwpre; exact h.1
        | inr hwrest => exact ih post h.2.2 w hwrest

theorem splitDash_all (q : Char → Bool) (cs : List Char) (h : cs.all q = true) :
    ∀ w ∈ splitDash cs, w.all q = true :=
  splitCharAux_all '-' q (cs.length + 1) cs h

theorem popWhileLongAux_subset :
    ∀ (fuel : Nat) (ws : List (List Char)) (w : List Char),
      w ∈ popWhileLongAux fuel ws → w ∈ ws := by
  intro fuel
  induction fuel with
  | zero => intro ws w hw; simpa [popWhileLongAux] using hw
  | succ n ih =>
    intro ws w hw
    simp only [popWhileLongAux] at hw
    split at hw
    · exact (List.dropLast_sublist ws).subset (ih ws.dropLast w hw)
    · exact hw

theorem joinDash_all (q : Char → Bool) (hdash : q '-' = true) :
    ∀ (ws : List (List Char)), (∀ w ∈ ws, w.all q = true) →
      (joinDash ws).all q = true := by
  intro ws
  induction ws with
  | nil => intro _; simp [joinDash]
  | cons w ws ih =>
    intro h
    match ws with
    | [] => simpa [joinDash] using h w (List.mem_singleton.mpr rfl)
    | w2 :: rest =>
      simp only [joinDash, List.all_append, List.all_cons, Bool.and_eq_true]
      refine ⟨h w (List.mem_cons_self _ _), hdash, ?_⟩
      exact ih (fun x hx => h x (List.mem_cons_of_mem w hx))

theorem slug_normalize_all (kp : String) :
    (slug_normalize kp).all isSlugChar = true := by
  unfold slug_normalize
  have hkeep : ∀ c ∈ ((lowerL kp.data).map accentFold).filter isSlugKeep,
      isSlugKeep c = true := by
    intro c hc
    exact List.of_mem_filter hc
  have hchar : ∀ c, isSlugKeep c = true → isWs c = false → isSlugChar c = true := by
    intro c h1 h2
    simp only [isSlugKeep, isWs, isSlugChar, decide_eq_true_eq, decide_eq_false_iff_not] at *
    tauto
  have h3 : (collapseRuns isWs (((lowerL kp.data).map accentFold).filter isSlugKeep)).all
      isSlugChar = true := by
    apply collapseRuns_all
    · decide
    · intro c hc hws
      exact hchar c (hkeep c hc) hws
  have h4 : (collapseRuns (fun c => c = '-')
      (collapseRuns isWs (((lowerL kp.data).map accentFold).filter isSlugKeep))).all
      isSlugChar = true := by
    apply collapseRuns_all
    · decide
    · intro c hc _
      rw [List.all_eq_true] at h3
      exact h3 c hc
  have h5 := all_of_stripChars (fun c => c = '-') isSlugChar _ h4
  dsimp only
  split
  · apply joinDash_all isSlugChar (by decide)
    intro w hw
    exact splitDash_all isSlugChar _ h5 w (popWhileLongAux_subset _ _ w hw)
  · exact h5

/-! ### Theorems for claim C8 -/

/-- C8 (counterexample): for the keyphrase `"!!!"` the normalized slug is
empty, so `_optimize_slug_with_keyphrase` falls back to
`focus_keyphrase.replace(' ', '-')` and returns `"!!!"` — a slug that is
not restricted to `[a-z0-9-]`.  This refutes the claim that the produced
slug always consists only of `[a-z0-9-]` characters. -/
theorem optimize_slug_charset_cex :
    (optimize_slug_with_keyphrase "Impressora Teste" "!!!").data.all isSlugChar = false := by
  decide

/-- C8 (amended): whenever the normalized keyphrase retains at least one
character (the `slug or …` fallback is not taken),
`_optimize_slug_with_keyphrase` returns a non-empty slug consisting only
of `[a-z0-9-]` characters; otherwise it falls back to the raw keyphrase
with spaces replaced by hyphens, which can be empty or contain arbitrary
characters. -/
theorem optimize_slug_valid (text kp : String) (h : slug_normalize kp ≠ []) :
    optimize_slug_with_keyphrase text kp ≠ "" ∧
      (optimize_slug_with_keyphrase text kp).data.all isSlugChar = true := by
  unfold optimize_slug_with_keyphrase
  simp only [if_neg h]
  constructor
  · intro heq
    exact h (congrArg String.data heq)
  · exact slug_normalize_all kp

/-- C8 (witness): the amended theorem applied at a concrete keyphrase. -/
theorem optimize_slug_valid_witness :
    optimize_slug_with_keyphrase "Impressora HP X" "impressora hp" ≠ "" ∧
      (optimize_slug_with_keyphrase "Impressora HP X" "impressora hp").data.all
        isSlugChar = true :=
  optimize_slug_valid "Impressora HP X" "impressora hp" (by decide)

/-! ### `SEOOptimizer.optimize_title_yoast`
(src/generator/seo_optimizer.py, lines 122–163) -/

/-- The word-accumulation loop used by `optimize_title_yoast` (and by
`optimize_meta_description_yoast`): append whitespace-separated words as
long as the accumulated text stays within `limit` characters, stopping at
the first word that does not fit. -/
def buildWithinAux (limit : Nat) (acc : List Char) : List (List Char) → List Char
  | [] => acc
  | w :: ws =>
    let t := if acc = [] then w.length else acc.length + 1 + w.length
    if t ≤ limit then buildWithinAux limit (if acc = [] then w else acc ++ ' ' :: w) ws
    else acc

/-- Python `title.split(':')[-1]`. -/
def lastColonSegment (cs : List Char) : List Char :=
  (splitChar ':' cs).getLastD []

/-- The `if len(title) > 60` capping step of `optimize_title_yoast`:
word-wise truncation when the keyword survives in the first 60
characters, else a rebuild from the last colon segment hard-cut with an
ellipsis at 57 characters. -/
def capTitle60 (keyword t1 : String) : String :=
  if t1.length > 60 then
    if containsSubL (lowerL (t1.data.take 60)) (lowerStr keyword).data then
      (⟨buildWithinAux 60 [] (splitWsL t1.data)⟩ : String)
    else
      let t3 := titleStr keyword ++ ": " ++ stripStr ⟨lastColonSegment t1.data⟩
      if t3.length > 60 then (⟨t3.data.take 57⟩ : String) ++ "..." else t3
  else t1

/-- `optimize_title_yoast(title, keyword)` (seo_optimizer.py, lines
122–163): prepend the title-cased keyword when missing, then cap the
result at 60 characters.  No minimum length is enforced anywhere in the
function. -/
def optimize_title_yoast (title keyword : String) : String :=
  if title = "" then titleStr keyword ++ ": Características e Benefícios"
  else
    let t1 := if containsSub (lowerStr title) (lowerStr keyword) then title
              else titleStr keyword ++ ": " ++ title
    stripStr (capTitle60 keyword t1)

/-! Sanity checks of the title embedding against the Python behaviour. -/

example :
    optimize_title_yoast "" "canon pixma g3111" =
      "Canon Pixma G3111: Características e Benefícios" := by decide

example :
    optimize_title_yoast "Melhor Impressora Multifuncional" "canon pixma g3111" =
      "Canon Pixma G3111: Melhor Impressora Multifuncional" := by decide

example :
    optimize_title_yoast
      "canon pixma g3111 impressora tanque de tinta multifuncional wifi completa"
      "canon pixma g3111" =
      "canon pixma g3111 impressora tanque de tinta multifuncional" := by decide

/-! ### Length lemmas for the composers -/

theorem stripWsL_length_le (cs : List Char) : (stripWsL cs).length ≤ cs.length := by
  unfold stripWsL
  calc ((cs.dropWhile isWs).reverse.dropWhile isWs).reverse.length
      = ((cs.dropWhile isWs).reverse.dropWhile isWs).length := by
        exact List.length_reverse _
    _ ≤ (cs.dropWhile isWs).reverse.length := (List.dropWhile_sublist _).length_le
    _ = (cs.dropWhile isWs).length := List.length_reverse _
    _ ≤ cs.length := (List.dropWhile_sublist _).length_le

theorem stripStr_length_le (s : String) : (stripStr s).length ≤ s.length :=
  stripWsL_length_le s.data

theorem strLength_append (s t : String) : (s ++ t).length = s.length + t.length := by
  show (s ++ t).data.length = s.data.length + t.data.length
  rw [String.data_append]
  exact List.length_append _ _

theorem buildWithinAux_le (limit : Nat) :
    ∀ (ws : List (List Char)) (acc : List Char), acc.length ≤ limit →
      (buildWithinAux limit acc ws).length ≤ limit := by
  intro ws
  induction ws with
  | nil => intro acc h; simpa [buildWithinAux] using h
  | cons w ws ih =>
    intro acc h
    rw [buildWithinAux]
    by_cases hacc : acc = []
    · subst hacc
      simp only [eq_self_iff_true, if_true, List.length_nil, List.nil_append]
      by_cases hw : w.length ≤ limit
      · rw [if_pos hw]
        exact ih w hw
      · rw [if_neg hw]
        simp
    · simp only [if_neg hacc]
      by_cases hw : acc.length + 1 + w.length ≤ limit
      · rw [if_pos hw]
        apply ih
        simp only [List.length_append, List.length_cons]
        omega
      · rw [if_neg hw]
        exact h

/-! ### Theorems for claim C7 -/

/-- C7 (counterexample): the raw title `"canon pixma g3111"` already
contains the phrase, is at most 60 characters, and is therefore returned
unchanged with length 17 — outside the claimed `[30,60]` range.  The
function enforces no minimum title length. -/
theorem optimize_title_min_length_cex :
    ¬ (30 ≤ (optimize_title_yoast "canon pixma g3111" "canon pixma g3111").length) := by
  decide

/-- C7 (amended): for the phrase `"canon pixma g3111"`,
`optimize_title_yoast` always returns a title of at most 60 characters;
the lower bound of 30 claimed by the spec is not enforced (a short title
containing the phrase is returned unchanged). -/
theorem capTitle60_le_of_long (keyword t1 : String) (hlong : t1.length > 60) :
    (capTitle60 keyword t1).length ≤ 60 := by
  unfold capTitle60
  rw [if_pos hlong]
  split
  · exact buildWithinAux_le 60 _ [] (by simp)
  · dsimp only
    split
    · rename_i h3
      rw [strLength_append]
      have h57 : ((⟨(titleStr keyword ++ ": " ++
          stripStr ⟨lastColonSegment t1.data⟩).data.take 57⟩ : String)).length ≤ 57 :=
        List.length_take_le 57 _
      have hdots : ("..." : String).length = 3 := by decide
      omega
    · rename_i h3
      omega

theorem capTitle60_eq_of_short (keyword t1 : String) (h : ¬ t1.length > 60) :
    capTitle60 keyword t1 = t1 := by
  unfold capTitle60
  rw [if_neg h]

/-- C7 (amended): for the phrase `"canon pixma g3111"`,
`optimize_title_yoast` always returns a title of at most 60 characters;
the lower bound of 30 claimed by the spec is not enforced (a short title
containing the phrase is returned unchanged). -/
theorem optimize_title_le_60 (title : String) :
    (optimize_title_yoast title "canon pixma g3111").length ≤ 60 := by
  unfold optimize_title_yoast
  split
  · decide
  · dsimp only
    refine le_trans (stripStr_length_le _) ?_
    by_cases hlong :
        (if containsSub (lowerStr title) (lowerStr "canon pixma g3111") = true then title
          else titleStr "canon pixma g3111" ++ ": " ++ title).length > 60
    · exact capTitle60_le_of_long _ _ hlong
    · rw [capTitle60_eq_of_short _ _ hlong]
      omega

/-! ### `SEOOptimizer.optimize_meta_description_yoast`
(src/generator/seo_optimizer.py, lines 227–276) -/

/-- The fixed call-to-action list of `optimize_meta_description_yoast`. -/
def ctaOptions : List String :=
  [" Confira características e benefícios.",
   " Ideal para escritório e empresas.",
   " Descubra especificações e vantagens.",
   " Saiba mais sobre funcionalidades."]

/-- The `for cta in cta_options: if len(meta_desc + cta) <= 155 …` loop:
append the first call-to-action that keeps the text within 155
characters, or leave the text unchanged when none fits. -/
def addFirstCta (m : String) : List String → String
  | [] => m
  | cta :: rest => if (m ++ cta).length ≤ 155 then m ++ cta else addFirstCta m rest

/-- `optimize_meta_description_yoast(meta_desc, keyword)`
(seo_optimizer.py, lines 227–276): fixed template when the raw meta is
empty; otherwise strip HTML, prepend the title-cased keyword when the
keyword is missing, then append a call-to-action when under 120
characters or truncate word-wise with an ellipsis when over 155. -/
def optimize_meta_description_yoast (meta_desc keyword : String) : String :=
  if meta_desc = "" then
    "Conheça " ++ keyword ++
      " e suas principais características. Ideal para escritório e alta produtividade. Confira benefícios e especificações."
  else
    let m1 := stripTags meta_desc
    let m2 := if containsSub (lowerStr m1) (lowerStr keyword) then m1
              else titleStr keyword ++ ": " ++ m1
    let m3 :=
      if m2.length < 120 then addFirstCta m2 ctaOptions
      else if m2.length > 155 then
        (⟨buildWithinAux 152 [] (splitWsL m2.data)⟩ : String) ++ "..."
      else m2
    stripStr m3

/-! Sanity check of the meta embedding against the Python behaviour. -/

example :
    optimize_meta_description_yoast
      "Esta impressora hp oferece qualidade superior para o seu escritorio."
      "impressora hp" =
      "Esta impressora hp oferece qualidade superior para o seu escritorio. Confira características e benefícios." := by
  decide

/-! ### Theorems for claim C6 -/

/-- C6 (counterexample): a 68-character raw meta that already contains
the phrase gets one call-to-action appended and is returned with 107
characters — below the claimed lower bound of 120.  This refutes the
claim that the MetaComposer output always has length in `[120,155]`. -/
theorem optimize_meta_length_cex :
    ¬ (120 ≤ (optimize_meta_description_yoast
        "Esta impressora hp oferece qualidade superior para o seu escritorio."
        "impressora hp").length ∧
      (optimize_meta_description_yoast
        "Esta impressora hp oferece qualidade superior para o seu escritorio."
        "impressora hp").length ≤ 155) := by
  decide

theorem addFirstCta_le (m : String) (hm : m.length ≤ 155) :
    ∀ ctas : List String, (addFirstCta m ctas).length ≤ 155 := by
  intro ctas
  induction ctas with
  | nil => simpa [addFirstCta] using hm
  | cons cta rest ih =>
    rw [addFirstCta]
    split
    · assumption
    · exact ih

/-- C6 (amended): whenever the raw meta description is non-empty,
`optimize_meta_description_yoast` returns at most 155 characters; the
claimed lower bound of 120 is not enforced (a short meta plus the first
fitting call-to-action can stay under 120), and for an empty raw meta
the fixed template can exceed 155 for long phrases. -/
theorem optimize_meta_le_155 (meta_desc keyword : String) (h : meta_desc ≠ "") :
    (optimize_meta_description_yoast meta_desc keyword).length ≤ 155 := by
  unfold optimize_meta_description_yoast
  rw [if_neg h]
  dsimp only
  refine le_trans (stripStr_length_le _) ?_
  set m2 := if containsSub (lowerStr (stripTags meta_desc))
      (lowerStr keyword) = true then stripTags meta_desc
    else titleStr keyword ++ ": " ++ stripTags meta_desc with hm2
  by_cases hshort : m2.length < 120
  · rw [if_pos hshort]
    exact addFirstCta_le m2 (by omega) ctaOptions
  · rw [if_neg hshort]
    by_cases hlong : m2.length > 155
    · rw [if_pos hlong]
      rw [strLength_append]
      have hb : ((⟨buildWithinAux 152 [] (splitWsL m2.data)⟩ : String)).length ≤ 152 :=
        buildWithinAux_le 152 _ [] (by simp)
      have hdots : ("..." : String).length = 3 := by decide
      omega
    · rw [if_neg hlong]
      omega

/-- C6 (witness): the amended theorem applied at a concrete input. -/
theorem optimize_meta_le_155_witness :
    (optimize_meta_description_yoast "Guia completo." "hp").length ≤ 155 :=
  optimize_meta_le_155 "Guia completo." "hp" (by decide)

/-! ### `SEOOptimizer._optimize_lists_enhanced`
(src/generator/seo_optimizer.py, lines 545–574) -/

/-- Locate the first occurrence of `needle` in `cs`: returns the
characters before it and the characters after it. -/
def splitAtSub (needle : List Char) : List Char → Option (List Char × List Char)
  | [] => if needle = [] then some ([], []) else none
  | c :: rest =>
    if needle.isPrefixOf (c :: rest) then some ([], (c :: rest).drop needle.length)
    else
      match splitAtSub needle rest with
      | none => none
      | some (pre, post) => some (c :: pre, post)

/-- `re.findall(r'<li[^>]*>(.*?)</li>', list_content, re.DOTALL)`: the
lazily-matched item bodies, scanned left to right without overlap; a
failed match attempt advances one character, as the regex engine does. -/
def findLis : Nat → List Char → List (List Char)
  | 0, _ => []
  | fuel + 1, cs =>
    match cs with
    | [] => []
    | _ :: rest =>
      if ['<', 'l', 'i'].isPrefixOf cs then
        match splitAtFirst '>' (cs.drop 3) with
        | some (_, afterGt) =>
          match splitAtSub ['<', '/', 'l', 'i', '>'] afterGt with
          | some (item, afterClose) => item :: findLis fuel afterClose
          | none => findLis fuel rest
        | none => findLis fuel rest
      else findLis fuel rest

/-- The cleaning loop of `improve_list`: strip tags from each item, strip
whitespace, and keep only non-empty items of at most 15 words. -/
def cleanItems (body : List Char) : List String :=
  ((findLis body.length body).map (fun i => stripStr (stripTags ⟨i⟩))).filter
    (fun t => t ≠ "" ∧ wordCount t ≤ 15)

/-- `_generate_product_specific_features(keyword, count)`
(seo_optimizer.py, lines 576–626): a category-keyed bank of six filler
features, truncated to `count`. -/
def generate_product_specific_features (keyword : String) (count : Nat) : List String :=
  let kwl := lowerStr keyword
  let features :=
    if containsSub kwl "impressora" then
      ["Impressão rápida de até 38 páginas por minuto",
       "Conectividade USB e Ethernet integrada",
       "Compatibilidade com Windows, Mac e Linux",
       "Baixo consumo de energia em standby",
       "Bandeja com capacidade para 250 folhas",
       "Resolução até 1200 x 1200 dpi"]
    else if containsSub kwl "multifuncional" then
      ["Impressão, cópia e scan em um equipamento",
       "Scanner com resolução óptica de 600 dpi",
       "Copiadora com zoom de 25% a 400%",
       "Conectividade Wi-Fi para uso sem fio",
       "Alimentador automático de documentos",
       "Software de digitalização incluído"]
    else if containsSub kwl "toner" then
      ["Alto rendimento com até 2.300 páginas",
       "Qualidade de impressão profissional",
       "Instalação rápida e sem complicações",
       "Compatível com múltiplos modelos",
       "Tinta resistente e de longa duração",
       "Garantia de qualidade comprovada"]
    else if containsSub kwl "papel" then
      ["Gramatura 75g/m² para impressão de qualidade",
       "Brancura superior para textos nítidos",
       "Formato A4 padrão universal",
       "Papel sem ácido para durabilidade",
       "Compatível com jato de tinta e laser",
       "Embalagem resistente à umidade"]
    else
      ["Qualidade superior comprovada",
       "Excelente custo-benefício",
       "Garantia de satisfação total",
       "Compatibilidade com equipamentos modernos",
       "Instalação e configuração simples",
       "Design moderno e funcional"]
  features.take count

/-- The padded-and-capped item list rebuilt by `improve_list`: pad to at
least 3 items from the feature bank, cap at 6. -/
def paddedItems (keyword : String) (body : List Char) : List String :=
  let ci := cleanItems body
  (if ci.length < 3 then
    ci ++ generate_product_specific_features keyword (3 - ci.length)
  else ci).take 6

/-- The replacement string built by `improve_list` for one matched
`<ul>…</ul>` block. -/
def improveList (keyword : String) (body : List Char) : List Char :=
  ("<ul>\n").data ++
    (paddedItems keyword body).foldr
      (fun i acc => ("    <li>").data ++ i.data ++ ("</li>\n").data ++ acc) [] ++
    ("</ul>").data

/-- `re.sub(r'<ul[^>]*>(.*?)</ul>', improve_list, content, flags=re.DOTALL)`:
replace every non-overlapping lazily-matched list block. -/
def subUl (keyword : String) : Nat → List Char → List Char
  | 0, cs => cs
  | fuel + 1, cs =>
    match cs with
    | [] => []
    | c :: rest =>
      if ['<', 'u', 'l'].isPrefixOf cs then
        match splitAtFirst '>' (cs.drop 3) with
        | some (_, afterGt) =>
          match splitAtSub ['<', '/', 'u', 'l', '>'] afterGt with
          | some (body, afterClose) => improveList keyword body ++ subUl keyword fuel afterClose
          | none => c :: subUl keyword fuel rest
        | none => c :: subUl keyword fuel rest
      else c :: subUl keyword fuel rest

/-- `_optimize_lists_enhanced(content, keyword)` (seo_optimizer.py,
lines 545–574). -/
def optimize_lists_enhanced (content keyword : String) : String :=
  ⟨subUl keyword content.data.length content.data⟩

/-! Sanity check of the list-pass embedding against the Python behaviour. -/

example :
    optimize_lists_enhanced "<p>intro</p><ul><li>um recurso</li><li>dois recursos</li></ul>fim"
      "produto" =
      "<p>intro</p><ul>\n    <li>um recurso</li>\n    <li>dois recursos</li>\n    <li>Qualidade superior comprovada</li>\n</ul>fim" := by
  decide

/-! ### Theorems for claim C5 -/

/-- C5 (counterexample): a list whose only item has 16 words.  The item
is dropped by the `len(clean_text.split()) <= 15` filter and replaced by
three generic filler features, so the stripped word count falls from 16
to 9: the list pass does remove original sentence content, refuting the
claimed monotone non-decrease of the stripped word count through passes
1–3 and 6–11. -/
theorem optimize_lists_wordcount_cex :
    wordCount (stripTags (optimize_lists_enhanced
        "<ul><li>um dois tres quatro cinco seis sete oito nove dez onze doze treze catorze quinze dezesseis</li></ul>"
        "produto")) <
      wordCount (stripTags
        "<ul><li>um dois tres quatro cinco seis sete oito nove dez onze doze treze catorze quinze dezesseis</li></ul>") := by
  decide

theorem generate_features_length (keyword : String) (count : Nat) :
    (generate_product_specific_features keyword count).length = min count 6 := by
  unfold generate_product_specific_features
  dsimp only
  split
  · simp
  · split
    · simp
    · split
      · simp
      · split
        · simp
        · simp

/-- C5 (amended): the list pass does not preserve list content — items
longer than 15 words are dropped, and items beyond the sixth are cut —
so the stripped word count can decrease.  What the pass does guarantee
is that every rebuilt list has between 3 and 6 items and that every kept
original item has at most 15 words. -/
theorem paddedItems_bounds (keyword : String) (body : List Char) :
    3 ≤ (paddedItems keyword body).length ∧ (paddedItems keyword body).length ≤ 6 ∧
      (cleanItems body).all (fun t => wordCount t ≤ 15) = true := by
  refine ⟨?_, ?_, ?_⟩
  · unfold paddedItems
    dsimp only
    by_cases h : (cleanItems body).length < 3
    · rw [if_pos h]
      rw [List.length_take, List.length_append, generate_features_length]
      omega
    · rw [if_neg h]
      rw [List.length_take]
      omega
  · unfold paddedItems
    dsimp only
    split
    · rw [List.length_take]
      omega
    · rw [List.length_take]
      omega
  · rw [List.all_eq_true]
    intro t ht
    have := List.of_mem_filter ht
    simp only [decide_eq_true_eq] at this
    simpa using this.2

/-! ### `PublicationManager._ensure_unique_keyphrase`
(src/publisher/publication_manager.py, lines 270–318) -/

/-- The fixed suffix list of `_ensure_unique_keyphrase`. -/
def keyphraseSuffixes : List String :=
  ["2025", "nova", "atualizada", "completa", "v2", "pro",
   "premium", "especial", "definitiva", "avançada", "melhorada",
   "atual", "moderna", "upgrade", "plus", "max"]

/-- `_ensure_unique_keyphrase(keyphrase)` (publication_manager.py, lines
270–318).  `used` is the snapshot of
`SELECT DISTINCT focus_keyphrase FROM publications` read at the start of
the call; `now` is the `datetime.now().strftime('%m%d')` timestamp.  The
function performs a read-only lookup against the snapshot and returns a
candidate phrase; the reservation insert happens later, in a separate
database write, outside this function. -/
def ensure_unique_keyphrase (used : List String) (kp now : String) : String :=
  let usedLower := used.map lowerStr
  let original := lowerStr (stripStr kp)
  if usedLower.contains original then
    match keyphraseSuffixes.find? (fun s => ¬ usedLower.contains (original ++ " " ++ s)) with
    | some s => original ++ " " ++ s
    | none => original ++ " " ++ now
  else original

/-! ### Theorems for claim C9 -/

/-- C9 (counterexample): the uniqueness lookup and the reservation insert
are not one atomic step — `_ensure_unique_keyphrase` only reads a
snapshot of the `publications` table, and the insert happens later in a
separate write.  In the interleaving where two concurrent calls both read
the same (empty) snapshot before either insert, both return the very same
phrase and both reservations are inserted, leaving the registry with the
conflicting phrase twice.  This refutes the claim that two concurrent
reserve calls can never both succeed for the same phrase. -/
theorem ensure_unique_keyphrase_race_cex :
    ensure_unique_keyphrase [] "Canon Pixma G3111" "0101" =
        ensure_unique_keyphrase [] "Canon Pixma G3111" "0101" ∧
      List.count (ensure_unique_keyphrase [] "Canon Pixma G3111" "0101")
        (ensure_unique_keyphrase [] "Canon Pixma G3111" "0101" ::
          ensure_unique_keyphrase [] "Canon Pixma G3111" "0101" :: []) = 2 := by
  decide

/-- C9 (amended): the check and the insert are separate, non-atomic
steps, so two concurrent calls that read the same snapshot return the
same phrase for a conflicting input; under serialized execution, however,
`_ensure_unique_keyphrase` does return a phrase that is not in the used
set (case-insensitively), provided either the phrase itself is unused or
some suffixed candidate is still unused. -/
theorem ensure_unique_keyphrase_sequential (used : List String) (kp now : String)
    (h : (used.map lowerStr).contains (lowerStr (stripStr kp)) = false ∨
      ∃ s ∈ keyphraseSuffixes,
        (used.map lowerStr).contains (lowerStr (stripStr kp) ++ " " ++ s) = false) :
    (used.map lowerStr).contains (ensure_unique_keyphrase used kp now) = false := by
  unfold ensure_unique_keyphrase
  dsimp only
  by_cases hin : (used.map lowerStr).contains (lowerStr (stripStr kp)) = true
  · rw [if_pos hin]
    rcases h with h | h
    · rw [hin] at h
      exact absurd h (by simp)
    · obtain ⟨s, hs, hunused⟩ := h
      cases hfind : keyphraseSuffixes.find?
          (fun s => ¬ (used.map lowerStr).contains (lowerStr (stripStr kp) ++ " " ++ s)) with
      | none =>
        exfalso
        have hnone := List.find?_eq_none.mp hfind s hs
        simp only [decide_eq_true_eq, not_not] at hnone
        rw [hnone] at hunused
        exact absurd hunused (by simp)
      | some s0 =>
        have := List.find?_some hfind
        simpa using this
  · rw [if_neg hin]
    simpa using hin

/-- C9 (witness): the amended theorem applied at a concrete used set and
phrase: `"Canon Pixma G3111"` is already taken, and the first suffixed
candidate `"canon pixma g3111 2025"` is free. -/
theorem ensure_unique_keyphrase_sequential_witness :
    (["canon pixma g3111"].map lowerStr).contains
      (ensure_unique_keyphrase ["canon pixma g3111"] " Canon Pixma G3111 " "0101") = false :=
  ensure_unique_keyphrase_sequential ["canon pixma g3111"] " Canon Pixma G3111 " "0101"
    (Or.inr ⟨"2025", by decide, by decide⟩)

/-! ### `PublicationManager._optimize_keyword_density`
(src/publisher/publication_manager.py, lines 796–884) -/

/-- The filler block appended when the body has fewer than 300 words
(the `extra_content` f-string of `_optimize_keyword_density`). -/
def extraContent : String :=
  "\n<h3>Análise Técnica</h3>\n<p>Este modelo apresenta especificações técnicas que o destacam no mercado atual. Com tecnologia moderna e design inovador, atende às expectativas dos usuários mais exigentes.</p>\n\n<p>Por outro lado, a facilidade de uso é um dos pontos fortes deste equipamento. Dessa forma, tanto iniciantes quanto usuários experientes podem aproveitar todos os recursos disponíveis sem complicações.</p>\n\n<h3>Comparativo de Mercado</h3>\n<p>Quando comparamos com modelos similares, encontramos vantagens significativas em termos de custo-benefício. Além disso, a durabilidade e confiabilidade são características que justificam o investimento.</p>\n\n<p>Consequentemente, para quem busca qualidade e economia, este modelo representa uma escolha acertada. Em primeiro lugar, os custos operacionais são reduzidos, garantindo economia a longo prazo.</p>\n\n<h3>Suporte e Garantia</h3>\n<p>Por fim, o suporte técnico especializado e a garantia estendida são diferenciais importantes. Portanto, você terá tranquilidade e segurança em sua compra, sabendo que conta com assistência qualificada sempre que necessário.</p>\n"

/-- The `natural_contexts` list of `_optimize_keyword_density`.  In the
source these are f-strings **without any placeholder**: despite the
comment "Adicionar palavra-chave em contextos naturais", none of them
contains the focus keyphrase. -/
def naturalContexts : List String :=
  ["<p>Este modelo oferece excelente desempenho para uso diário.</p>",
   "<p>É ideal para uso profissional e doméstico.</p>",
   "<p>Escolher o modelo certo é fundamental para bons resultados.</p>",
   "<p>A tecnologia moderna garante eficiência energética.</p>",
   "<p>Investir neste equipamento é uma decisão inteligente.</p>"]

/-- The dilution block appended when the density exceeds 2.5%. -/
def dilutionContent : String :=
  "\n\n<h3>Instalação e Configuração</h3>\n<p>A instalação é simples e rápida, permitindo que você comece a usar imediatamente. O design moderno combina com qualquer ambiente, seja residencial ou comercial.</p>\n\n<p>A interface é intuitiva e fácil de navegar. Os recursos avançados são acessíveis através de menus bem organizados, facilitando o dia a dia dos usuários.</p>\n\n<h3>Economia e Sustentabilidade</h3>\n<p>O consumo energético é otimizado, contribuindo para a sustentabilidade e redução de custos operacionais. Isso representa economia real na conta de energia elétrica.</p>\n\n<p>A manutenção preventiva é simples e econômica. Com cuidados básicos, você garante longa vida útil ao equipamento.</p>\n\n<h3>Atendimento e Suporte</h3>\n<p>O atendimento ao cliente é personalizado e eficiente. Nossa equipe técnica especializada está sempre pronta para ajudar com dúvidas e orientações.</p>\n\n<p>A garantia estendida oferece tranquilidade adicional. Você conta com cobertura completa contra defeitos de fabricação.</p>\n\n<h3>Benefícios de Longo Prazo</h3>\n<p>O investimento se paga rapidamente através da economia operacional. Além da redução de custos, você obtém maior produtividade e eficiência no trabalho.</p>\n\n<p>A tecnologia avançada garante compatibilidade com sistemas futuros. Você não precisará se preocupar com obsolescência prematura do equipamento.</p>\n"

/-- The keyword-occurrence count used throughout
`_optimize_keyword_density` and `_validate_yoast_green_criteria`:
`text_only.lower().count(focus_keyphrase.lower())` on the tag-stripped
text. -/
def keywordOccurrences (content kp : String) : Nat :=
  countSub (lowerStr (stripTags content)) (lowerStr kp)

/-- Concatenation of a list of strings. -/
def concatStrings : List String → String
  | [] => ""
  | s :: rest => s ++ concatStrings rest

/-- Append the first `n` natural contexts, each preceded by a newline
(the `for i in range(min(additional_needed, len(natural_contexts)))`
loop). -/
def appendContexts (content : String) (n : Nat) : String :=
  content ++ concatStrings ((naturalContexts.take n).map (fun c => "\n" ++ c))

/-- Whether `(count / total) * 100 < 0.5` under Python's semantics
(`density = 0` when `total = 0`): for `total > 0` this is exactly
`200 * count < total`.  Encoded over `Nat` so that the definition
evaluates in the kernel; the encoding is the exact rational equivalent
of the float comparison, which is exact at these magnitudes. -/
def densityBelowHalf (count total : Nat) : Bool :=
  total = 0 ∨ 200 * count < total

/-- Whether `(count / total) * 100 > 2.5`: for `total > 0` this is
exactly `40 * count > total`, and false for `total = 0`. -/
def densityAbove25 (count total : Nat) : Bool :=
  total ≠ 0 ∧ total < 40 * count

/-- `len(re.sub(r'<[^>]+>', '', s).split())`: the stripped word count
used by `_optimize_keyword_density` and the validator. -/
def strippedWordCount (s : String) : Nat := wordCount (stripTags s)

/-- `_optimize_keyword_density(content, focus_keyphrase)`
(publication_manager.py, lines 796–884).  `int(total_words * 0.015)` is
modelled as `total_words * 15 / 1000` (floor), which agrees with the
float computation at the values reachable here. -/
def optimize_keyword_density (content kp : String) : String :=
  let content1 := if strippedWordCount content < 300 then content ++ extraContent
    else content
  let total_words1 := strippedWordCount content1
  let keyword_count1 := keywordOccurrences content1 kp
  if densityBelowHalf keyword_count1 total_words1 then
    let target := max 2 (total_words1 * 15 / 1000)
    if keyword_count1 < target then
      appendContexts content1 (min (target - keyword_count1) naturalContexts.length)
    else content1
  else if densityAbove25 keyword_count1 total_words1 then content1 ++ dilutionContent
  else content1

/-! Sanity check of the density embedding: a short body is first padded
with `extraContent`, then (density 0 < 0.5%) five keyword-free contexts
are appended; none contains the phrase, so the count stays 0. -/

set_option maxRecDepth 200000 in
example :
    keywordOccurrences
      (optimize_keyword_density "<p>um dois tres</p>" "canon g3111") "canon g3111" = 0 := by
  decide

/-! ### General lemmas for claim C4 -/

/-- The test body used for C4: `n` copies of the word `tinta` followed by
a space, i.e. a body of exactly `n` words with no markup. -/
def mkBodyData : Nat → List Char
  | 0 => []
  | n + 1 => 't' :: 'i' :: 'n' :: 't' :: 'a' :: ' ' :: mkBodyData n

/-- The test body as a string. -/
def mkBody (n : Nat) : String := ⟨mkBodyData n⟩

theorem mkBodyData_mem :
    ∀ (n : Nat) (c : Char), c ∈ mkBodyData n →
      c = 't' ∨ c = 'i' ∨ c = 'n' ∨ c = 'a' ∨ c = ' ' := by
  intro n
  induction n with
  | zero => intro c hc; simp [mkBodyData] at hc
  | succ m ih =>
    intro c hc
    simp only [mkBodyData, List.mem_cons] at hc
    rcases hc with h | h | h | h | h | h | h
    · exact Or.inl h
    · exact Or.inr (Or.inl h)
    · exact Or.inr (Or.inr (Or.inl h))
    · exact Or.inl h
    · exact Or.inr (Or.inr (Or.inr (Or.inl h)))
    · exact Or.inr (Or.inr (Or.inr (Or.inr h)))
    · exact ih c h

theorem mkBodyData_length (n : Nat) : (mkBodyData n).length = 6 * n := by
  induction n with
  | zero => simp [mkBodyData]
  | succ m ih => simp [mkBodyData, ih]; omega

/-- `stripTagsAux` is the identity on tag-free text, for every fuel. -/
theorem stripTagsAux_of_no_lt :
    ∀ (fuel : Nat) (cs : List Char), (∀ c ∈ cs, c ≠ '<') →
      stripTagsAux fuel cs = cs := by
  intro fuel
  induction fuel with
  | zero => intro cs _; rfl
  | succ f ih =>
    intro cs h
    match cs with
    | [] => rfl
    | c :: rest =>
      rw [stripTagsAux]
      rw [if_neg (h c (List.mem_cons_self _ _))]
      rw [ih rest (fun x hx => h x (List.mem_cons_of_mem c hx))]

/-- Every character of `stripTagsAux fuel cs` is a character of `cs`. -/
theorem stripTagsAux_mem :
    ∀ (fuel : Nat) (cs : List Char) (c : Char), c ∈ stripTagsAux fuel cs → c ∈ cs := by
  intro fuel
  induction fuel with
  | zero => intro cs c hc; exact hc
  | succ f ih =>
    intro cs c hc
    match cs with
    | [] => exact hc
    | b :: rest =>
      rw [stripTagsAux] at hc
      by_cases hb : b = '<'
      · rw [if_pos hb] at hc
        cases hsp : splitAtFirst '>' rest with
        | none =>
          rw [hsp] at hc
          rcases List.mem_cons.mp hc with h | h
          · exact List.mem_cons.mpr (Or.inl h)
          · exact List.mem_cons.mpr (Or.inr (ih rest c h))
        | some pr =>
          rw [hsp] at hc
          cases pr with
          | mk pre post =>
            dsimp only at hc
            by_cases hpre : pre = []
            · rw [if_pos hpre] at hc
              rcases List.mem_cons.mp hc with h | h
              · exact List.mem_cons.mpr (Or.inl h)
              · exact List.mem_cons.mpr (Or.inr (ih rest c h))
            · rw [if_neg hpre] at hc
              have hcpost : c ∈ post := ih post c hc
              have := splitAtFirst_eq_append hsp
              rw [this]
              simp [hcpost]
      · rw [if_neg hb] at hc
        rcases List.mem_cons.mp hc with h | h
        · exact List.mem_cons.mpr (Or.inl h)
        · exact List.mem_cons.mpr (Or.inr (ih rest c h))

/-- `str.count(needle)` is zero whenever the first character of the
needle does not occur in the text. -/
theorem countSubAux_eq_zero (n0 : Char) (ns : List Char) :
    ∀ (fuel : Nat) (cs : List Char), (∀ c ∈ cs, c ≠ n0) →
      countSubAux (n0 :: ns) fuel cs = 0 := by
  intro fuel
  induction fuel with
  | zero => intro cs _; cases cs <;> rfl
  | succ f ih =>
    intro cs h
    match cs with
    | [] => rfl
    | c :: rest =>
      rw [countSubAux]
      have hne : (n0 :: ns).isPrefixOf (c :: rest) = false := by
        simp only [List.isPrefixOf]
        have : (n0 == c) = false := by
          simp only [beq_eq_false_iff_ne, ne_eq]
          intro heq
          exact h c (List.mem_cons_self _ _) heq.symm
        simp [this]
      rw [hne]
      simp only [Bool.false_eq_true, if_false]
      exact ih rest (fun x hx => h x (List.mem_cons_of_mem c hx))

/-- Characters of `concatStrings L` come from the members of `L`. -/
theorem concatStrings_mem :
    ∀ (L : List String) (c : Char), c ∈ (concatStrings L).data →
      ∃ s ∈ L, c ∈ s.data := by
  intro L
  induction L with
  | nil => intro c hc; simp [concatStrings] at hc
  | cons s rest ih =>
    intro c hc
    rw [concatStrings, String.data_append] at hc
    rcases List.mem_append.mp hc with h | h
    · exact ⟨s, List.mem_cons_self _ _, h⟩
    · obtain ⟨s2, hs2, hcs2⟩ := ih c h
      exact ⟨s2, List.mem_cons_of_mem s hs2, hcs2⟩

theorem splitWsAux_tinta_step (f : Nat) (X : List Char) :
    splitWsAux (f + 1) ('t' :: 'i' :: 'n' :: 't' :: 'a' :: ' ' :: X) =
      ['t', 'i', 'n', 't', 'a'] :: splitWsAux f (' ' :: X) := by
  have hsp : isWs ' ' = true := by decide
  have ht : isWs 't' = false := by decide
  have hi : isWs 'i' = false := by decide
  have hn : isWs 'n' = false := by decide
  have ha : isWs 'a' = false := by decide
  rw [splitWsAux]
  simp only [List.dropWhile_cons, List.takeWhile_cons, hsp, ht, hi, hn, ha,
    Bool.false_eq_true, if_false, if_true, Bool.not_false, Bool.not_true]
  rfl

theorem splitWsAux_space_cons (f : Nat) (c : Char) (X : List Char) (hc : isWs c = false) :
    splitWsAux (f + 1) (' ' :: c :: X) = splitWsAux (f + 1) (c :: X) := by
  have hsp : isWs ' ' = true := by decide
  conv_lhs => rw [splitWsAux]
  conv_rhs => rw [splitWsAux]
  simp only [List.dropWhile_cons, hsp, hc, Bool.false_eq_true, if_false, if_true]

theorem splitWsAux_space_nil (f : Nat) : splitWsAux (f + 1) [' '] = [] := by
  have hsp : isWs ' ' = true := by decide
  rw [splitWsAux]
  simp [List.dropWhile_cons, hsp]

theorem splitWsAux_sp_mkBody :
    ∀ (n fuel : Nat), 6 * n + 1 ≤ fuel →
      (splitWsAux fuel (' ' :: mkBodyData n)).length = n := by
  intro n
  induction n with
  | zero =>
    intro fuel hf
    obtain ⟨f, rfl⟩ : ∃ f, fuel = f + 1 := ⟨fuel - 1, by omega⟩
    rw [show mkBodyData 0 = [] from rfl]
    rw [splitWsAux_space_nil]
    rfl
  | succ m ih =>
    intro fuel hf
    obtain ⟨f, rfl⟩ : ∃ f, fuel = f + 1 := ⟨fuel - 1, by omega⟩
    rw [show mkBodyData (m + 1) =
      't' :: 'i' :: 'n' :: 't' :: 'a' :: ' ' :: mkBodyData m from rfl]
    rw [splitWsAux_space_cons f 't' _ (by decide)]
    rw [splitWsAux_tinta_step]
    rw [List.length_cons]
    rw [ih f (by omega)]

theorem splitWsAux_mkBody (n fuel : Nat) (hf : 6 * n + 1 ≤ fuel) :
    (splitWsAux fuel (mkBodyData n)).length = n := by
  match n with
  | 0 =>
    obtain ⟨f, rfl⟩ : ∃ f, fuel = f + 1 := ⟨fuel - 1, by omega⟩
    rfl
  | m + 1 =>
    obtain ⟨f, rfl⟩ : ∃ f, fuel = f + 1 := ⟨fuel - 1, by omega⟩
    rw [show mkBodyData (m + 1) =
      't' :: 'i' :: 'n' :: 't' :: 'a' :: ' ' :: mkBodyData m from rfl]
    rw [splitWsAux_tinta_step]
    rw [List.length_cons]
    rw [splitWsAux_sp_mkBody m f (by omega)]

theorem splitWsL_mkBody (n : Nat) : (splitWsL (mkBodyData n)).length = n := by
  unfold splitWsL
  exact splitWsAux_mkBody n _ (by rw [mkBodyData_length])

/-- The body of `n` copies of `"tinta "` is tag-free, so `stripTags`
leaves it unchanged. -/
theorem stripTags_mkBody (n : Nat) : stripTags (mkBody n) = mkBody n := by
  show (⟨stripTagsL (mkBodyData n)⟩ : String) = ⟨mkBodyData n⟩
  unfold stripTagsL
  rw [stripTagsAux_of_no_lt _ (mkBodyData n)]
  intro c hc
  rcases mkBodyData_mem n c hc with h | h | h | h | h <;> subst h <;> decide

theorem lowerL_mkBody_ne_z (n : Nat) :
    ∀ c ∈ lowerL (mkBodyData n), c ≠ 'z' := by
  intro c hc
  unfold lowerL at hc
  obtain ⟨x, hx, rfl⟩ := List.mem_map.mp hc
  rcases mkBodyData_mem n x hx with h | h | h | h | h <;> subst h <;> decide

theorem keywordOccurrences_mkBody_z (n : Nat) :
    keywordOccurrences (mkBody n) "z" = 0 := by
  unfold keywordOccurrences
  rw [stripTags_mkBody]
  show countSubAux (lowerStr "z").data _ (lowerL (mkBodyData n)) = 0
  rw [show (lowerStr "z").data = ['z'] from rfl]
  exact countSubAux_eq_zero 'z' [] _ _ (lowerL_mkBody_ne_z n)

/-- None of the appended `natural_contexts` strings contains a `z` (nor a
`Z`): the f-strings carry no keyphrase placeholder. -/
theorem naturalContexts_no_z :
    naturalContexts.all (fun s => s.data.all (fun c => lowerChar c ≠ 'z')) = true := by
  decide

theorem appendContexts_ne_z (n m : Nat) :
    ∀ c ∈ lowerL (stripTags (appendContexts (mkBody n) m)).data, c ≠ 'z' := by
  intro c hc
  unfold lowerL at hc
  obtain ⟨x, hx, rfl⟩ := List.mem_map.mp hc
  have hx2 : x ∈ (appendContexts (mkBody n) m).data := stripTagsAux_mem _ _ x hx
  unfold appendContexts at hx2
  rw [String.data_append] at hx2
  rcases List.mem_append.mp hx2 with h | h
  · rcases mkBodyData_mem n x h with h2 | h2 | h2 | h2 | h2 <;> subst h2 <;> decide
  · obtain ⟨s, hs, hxs⟩ := concatStrings_mem _ x h
    obtain ⟨ctx, hctx, rfl⟩ := List.mem_map.mp hs
    rw [String.data_append] at hxs
    rcases List.mem_append.mp hxs with h2 | h2
    · have : x = '\n' := by simpa using h2
      subst this; decide
    · have hctx2 : ctx ∈ naturalContexts := List.mem_of_mem_take hctx
      have h1 : ctx.data.all (fun c => lowerChar c ≠ 'z') = true :=
        (List.all_eq_true.mp naturalContexts_no_z) ctx hctx2
      have h3 := (List.all_eq_true.mp h1) x h2
      simpa using h3

theorem keywordOccurrences_appendContexts_z (n m : Nat) :
    keywordOccurrences (appendContexts (mkBody n) m) "z" = 0 := by
  unfold keywordOccurrences
  show countSubAux (lowerStr "z").data _ _ = 0
  rw [show (lowerStr "z").data = ['z'] from rfl]
  exact countSubAux_eq_zero 'z' [] _ _ (appendContexts_ne_z n m)

/-! ### Theorem for claim C4 -/

/-- C4 (code bug): for a tag-free body of `n ≥ 300` words (`n` copies of
`"tinta "`) in which the phrase `"z"` occurs 0 times,
`_optimize_keyword_density` takes its low-density branch and appends the
`natural_contexts` sentences — but those f-strings contain no keyphrase
placeholder, so the final occurrence count is still 0, not in the `[5,25]`
band the code's own comments ("Adicionar palavra-chave em contextos
naturais", target 1.5% density) and the spec promise.  Instantiated at
`n = 1000` by the witness. -/
theorem optimize_keyword_density_no_injection (n : Nat) (h : 300 ≤ n) :
    wordCount (stripTags (mkBody n)) = n ∧
      keywordOccurrences (mkBody n) "z" = 0 ∧
      keywordOccurrences (optimize_keyword_density (mkBody n) "z") "z" = 0 ∧
      ¬ (5 ≤ keywordOccurrences (optimize_keyword_density (mkBody n) "z") "z" ∧
          keywordOccurrences (optimize_keyword_density (mkBody n) "z") "z" ≤ 25) := by
  have hswc : strippedWordCount (mkBody n) = n := by
    unfold strippedWordCount
    rw [stripTags_mkBody]
    exact splitWsL_mkBody n
  have hwc : wordCount (stripTags (mkBody n)) = n := hswc
  have hcount0 := keywordOccurrences_mkBody_z n
  have heval : optimize_keyword_density (mkBody n) "z" =
      appendContexts (mkBody n)
        (min (max 2 (n * 15 / 1000) - keywordOccurrences (mkBody n) "z")
          naturalContexts.length) := by
    unfold optimize_keyword_density
    dsimp only
    rw [hswc]
    rw [if_neg (show ¬ n < 300 by omega)]
    rw [hswc]
    have hbelow : densityBelowHalf (keywordOccurrences (mkBody n) "z") n = true := by
      unfold densityBelowHalf
      rw [hcount0]
      simp only [decide_eq_true_eq]
      omega
    rw [if_pos hbelow]
    have htarget : keywordOccurrences (mkBody n) "z" < max 2 (n * 15 / 1000) := by
      rw [hcount0]
      have := Nat.le_max_left 2 (n * 15 / 1000)
      omega
    rw [if_pos htarget]
  refine ⟨hwc, hcount0, ?_, ?_⟩
  · rw [heval]
    exact keywordOccurrences_appendContexts_z n _
  · rw [heval]
    rw [keywordOccurrences_appendContexts_z n _]
    omega

/-- C4 (witness): the failing input of the claim — a 1000-word body with
zero occurrences of the phrase — evaluated through the theorem. -/
theorem optimize_keyword_density_no_injection_witness :
    wordCount (stripTags (mkBody 1000)) = 1000 ∧
      keywordOccurrences (mkBody 1000) "z" = 0 ∧
      keywordOccurrences (optimize_keyword_density (mkBody 1000) "z") "z" = 0 ∧
      ¬ (5 ≤ keywordOccurrences (optimize_keyword_density (mkBody 1000) "z") "z" ∧
          keywordOccurrences (optimize_keyword_density (mkBody 1000) "z") "z" ≤ 25) :=
  optimize_keyword_density_no_injection 1000 (by omega)

/-! ### `PublicationManager._validate_yoast_green_criteria`
(src/publisher/publication_manager.py, lines 1439–1627) -/

/-- The sentence separators of `re.split(r'[.!?]+', …)`. -/
def isPunct (c : Char) : Bool := c = '.' ∨ c = '!' ∨ c = '?'

/-- Fuelled core of `splitPunct`: split on maximal runs of `[.!?]`,
keeping empty fields, as `re.split(r'[.!?]+', …)` does. -/
def splitPunctAux : Nat → List Char → List (List Char)
  | 0, cs => [cs]
  | fuel + 1, cs =>
    let pre := cs.takeWhile (fun c => ¬ isPunct c)
    match cs.dropWhile (fun c => ¬ isPunct c) with
    | [] => [pre]
    | rest => pre :: splitPunctAux fuel (rest.dropWhile isPunct)

/-- `re.split(r'[.!?]+', text)` on a character list. -/
def splitPunct (cs : List Char) : List (List Char) := splitPunctAux (cs.length + 1) cs

/-- Whether the text starts with `<h2`/`<h3` (`<h[23]`, case-insensitive
`h` under `re.IGNORECASE`). -/
def isOpenHAt : List Char → Bool
  | '<' :: h :: d :: _ => (h = 'h' ∨ h = 'H') ∧ (d = '2' ∨ d = '3')
  | _ => false

/-- Whether the text starts with a closing `</h2>`/`</h3>` tag
(case-insensitive `h`). -/
def isCloseHAt : List Char → Bool
  | '<' :: '/' :: h :: d :: '>' :: _ => (h = 'h' ∨ h = 'H') ∧ (d = '2' ∨ d = '3')
  | _ => false

/-- Locate the first closing `</h[23]>` tag: the characters before it and
the characters after it. -/
def splitAtCloseH : List Char → Option (List Char × List Char)
  | [] => none
  | c :: rest =>
    if isCloseHAt (c :: rest) then some ([], (c :: rest).drop 5)
    else
      match splitAtCloseH rest with
      | none => none
      | some (pre, post) => some (c :: pre, post)

/-- `re.findall(r'<h[23][^>]*>(.*?)</h[23]>', content, re.IGNORECASE)`:
the lazily-matched heading bodies, scanned left to right. -/
def findHeadings : Nat → List Char → List (List Char)
  | 0, _ => []
  | fuel + 1, cs =>
    match cs with
    | [] => []
    | _ :: rest =>
      if isOpenHAt cs then
        match splitAtFirst '>' (cs.drop 3) with
        | some (_, afterGt) =>
          match splitAtCloseH afterGt with
          | some (body, afterClose) => body :: findHeadings fuel afterClose
          | none => findHeadings fuel rest
        | none => findHeadings fuel rest
      else findHeadings fuel rest

/-- The transition-word list of check 11 of the validator. -/
def transitionWordsValidator : List String :=
  ["além disso", "portanto", "dessa forma", "consequentemente",
   "por outro lado", "de fato", "em resumo", "vale destacar",
   "por fim", "finalmente", "também", "adicionalmente"]

/-- The consecutive-first-word scan of check 12 of the validator
(`prev_first_word` / `consecutive_streak` / `consecutive_count`). -/
def consecGo : List Char → Nat → Nat → List (List Char) → Nat
  | _, _, count, [] => count
  | prev, streak, count, s :: rest =>
    match splitWsL (stripWsL s) with
    | [] => consecGo prev streak count rest
    | w :: _ =>
      let fw := lowerL w
      if fw = prev then
        (if streak + 1 ≥ 2 then consecGo fw (streak + 1) (count + 1) rest
         else consecGo fw (streak + 1) count rest)
      else consecGo fw 0 count rest

/-- The validator's report: per-check booleans (in the order of the
Python `checks` dict), the aggregate score, and the accumulated
validation errors.  Error entries are identified by short labels; the
Python message text (which carries no control-flow meaning) is elided. -/
structure YoastValidation where
  is_valid : Bool
  score : ℚ
  passed_checks : Nat
  total_checks : Nat
  checks : List Bool
  errors : List String
deriving Repr

/-- The final assembly of `_validate_yoast_green_criteria`: score,
`is_valid = score >= 90 and len(validation_errors) == 0`, and the
critical override `if not focus_keyphrase or len(focus_keyphrase) < 3`
that forces `is_valid = False` and inserts a critical message. -/
def mkValidation (check_focus : Bool) (checks : List Bool) (errors : List String) :
    YoastValidation :=
  let passed := checks.count true
  let total := checks.length
  let score : ℚ := ((passed : ℚ) / (total : ℚ)) * 100
  let valid0 := decide (90 ≤ score) && errors.isEmpty
  if check_focus then ⟨valid0, score, passed, total, checks, errors⟩
  else ⟨false, score, passed, total, checks, "critical_focus_keyword" :: errors⟩

/-- `_validate_yoast_green_criteria(title, meta_description, content,
focus_keyphrase)` (publication_manager.py, lines 1439–1627): the fifteen
checks, the error list (one entry per failed check, except `image_alt`,
which cannot fail, and `keyphrase_in_slug`, which records no error), the
score `passed/total*100`, and the validity flag.  The float comparisons
`0.5 <= (keyword_count/word_count)*100 <= 2.5` and
`(transition_count/len(sentences))*100 >= 25` (each defined as 0 when the
denominator is 0) are encoded by their exact integer equivalents
`word_count <= 200*keyword_count ∧ 40*keyword_count <= word_count` and
`len(sentences) <= 4*transition_count`, so the checks evaluate in the
kernel. -/
def validate_yoast_green_criteria (title meta_description content focus : String) :
    YoastValidation :=
  let cf : Bool := (focus ≠ "") ∧ 3 ≤ focus.length
  let kt : Bool := if focus ≠ "" then containsSub (lowerStr title) (lowerStr focus)
    else false
  let tl : Bool := 30 ≤ title.length ∧ title.length ≤ 60
  let km : Bool := if focus ≠ "" then
    containsSub (lowerStr meta_description) (lowerStr focus) else false
  let ml : Bool := 120 ≤ meta_description.length ∧ meta_description.length ≤ 155
  let text_content := stripTags content
  let k100 : Bool := if focus ≠ "" then
    containsSubL (lowerL (text_content.data.take 100)) (lowerStr focus).data else false
  let word_count := (splitWsL text_content.data).length
  let mw : Bool := 300 ≤ word_count
  let il : Bool := containsSub content "creativecopias.com.br"
  let el : Bool := containsSub content "hp.com" ∨ containsSub content "canon.com" ∨
    containsSub content "epson.com" ∨ containsSub content "brother.com"
  let ia : Bool := true
  let keyword_count := if focus ≠ "" then countSub (lowerStr text_content) (lowerStr focus)
    else 0
  let kd : Bool := 0 < word_count ∧ word_count ≤ 200 * keyword_count ∧
    40 * keyword_count ≤ word_count
  let sentences := ((splitPunct text_content.data).map stripWsL).filter
    (fun s => 10 < s.length)
  let transition_count := (sentences.filter (fun s =>
    transitionWordsValidator.any (fun t => containsSubL (lowerL s) t.data))).length
  let tw : Bool := sentences ≠ [] ∧ sentences.length ≤ 4 * transition_count
  let nc : Bool := consecGo [] 0 0 sentences = 0
  let headings := findHeadings content.data.length content.data
  let kh : Bool := headings.any (fun h => containsSubL (lowerL h) (lowerStr focus).data)
  let temp_slug := ((lowerStr focus).data.map (fun c => if c = ' ' then '-' else c)).filter
    (fun c => ('a' ≤ c ∧ c ≤ 'z') ∨ ('0' ≤ c ∧ c ≤ '9') ∨ c = '-')
  let ks : Bool := temp_slug ≠ []
  let checks : List Bool := [cf, kt, tl, km, ml, k100, mw, il, el, ia, kd, tw, nc, kh, ks]
  let errors : List String :=
    (if cf then [] else ["focus_keyword"]) ++
    (if kt then [] else ["keyword_in_title"]) ++
    (if tl then [] else ["title_length"]) ++
    (if km then [] else ["keyword_in_meta"]) ++
    (if ml then [] else ["meta_length"]) ++
    (if k100 then [] else ["keyword_first_100"]) ++
    (if mw then [] else ["min_words"]) ++
    (if il then [] else ["internal_link"]) ++
    (if el then [] else ["external_link"]) ++
    (if kd then [] else ["keyword_density"]) ++
    (if tw then [] else ["transition_words"]) ++
    (if nc then [] else ["no_consecutive_sentences"]) ++
    (if kh then [] else ["keyphrase_in_heading"])
  mkValidation cf checks errors

/-! Sanity checks of the validator embedding: a small article passing
only checks 1 (focus), 2 (keyword in title), 6 (keyword in first 100
chars), 10 (image alt, infallible), 13 (no repeated openers) and
15 (keyphrase in slug). -/

example :
    (validate_yoast_green_criteria "Tinta Teste" "" "<p>tinta boa</p>" "tinta").checks =
      [true, true, false, false, false, true, false, false, false, true,
       false, false, true, false, true] := by decide

example :
    (validate_yoast_green_criteria "Tinta Teste" "" "<p>tinta boa</p>" "tinta").passed_checks =
      6 := by decide

example :
    (validate_yoast_green_criteria "Tinta Teste" "" "<p>tinta boa</p>" "tinta").errors =
      ["title_length", "keyword_in_meta", "meta_length", "min_words", "internal_link",
       "external_link", "keyword_density", "transition_words", "keyphrase_in_heading"] := by
  decide

example :
    (validate_yoast_green_criteria "Tinta Teste" "" "<h2>В tinta</h2>" "").checks.head? =
      some false := by decide

/-! ### Theorems for claim C1 -/

theorem mkValidation_spec (cf : Bool) (checks : List Bool) (errors : List String) :
    (mkValidation cf checks errors).score =
        (((mkValidation cf checks errors).passed_checks : ℚ) /
          ((mkValidation cf checks errors).total_checks : ℚ)) * 100 ∧
      ((mkValidation cf checks errors).is_valid = true ↔
        ((90 : ℚ) ≤ (mkValidation cf checks errors).score ∧
          (mkValidation cf checks errors).errors = [])) := by
  unfold mkValidation
  by_cases h : cf = true
  · rw [if_pos h]
    refine ⟨rfl, ?_⟩
    dsimp only
    rw [Bool.and_eq_true, decide_eq_true_eq, List.isEmpty_iff]
  · rw [if_neg h]
    refine ⟨rfl, ?_⟩
    dsimp only
    constructor
    · intro hfalse
      exact absurd hfalse (by simp)
    · intro ⟨_, habs⟩
      exact absurd habs (by simp)

/-- C1: for every input, the validator's score is
`passed_checks / total_checks * 100`; `is_valid` holds exactly when the
score is at least 90 and no blocking check failed (every failed check
other than the infallible `image_alt` and the non-blocking
`keyphrase_in_slug` records a validation error, and
`is_valid = score >= 90 and len(validation_errors) == 0`); and an empty
focus phrase always forces `is_valid = False` regardless of the score. -/
theorem validate_yoast_score_validity (title meta_description content focus : String) :
    (validate_yoast_green_criteria title meta_description content focus).score =
        (((validate_yoast_green_criteria title meta_description content focus).passed_checks :
            ℚ) /
          ((validate_yoast_green_criteria title meta_description content
              focus).total_checks : ℚ)) * 100 ∧
      ((validate_yoast_green_criteria title meta_description content focus).is_valid =
          true ↔
        ((90 : ℚ) ≤ (validate_yoast_green_criteria title meta_description content
            focus).score ∧
          (validate_yoast_green_criteria title meta_description content focus).errors =
            [])) ∧
      (focus = "" →
        (validate_yoast_green_criteria title meta_description content focus).is_valid =
          false) := by
  refine ⟨(mkValidation_spec _ _ _).1, (mkValidation_spec _ _ _).2, ?_⟩
  intro hfocus
  unfold validate_yoast_green_criteria
  dsimp only
  have hcf : (decide ((focus ≠ "") ∧ 3 ≤ focus.length)) = false := by
    subst hfocus
    decide
  rw [hcf]
  unfold mkValidation
  rw [if_neg (by simp)]

/-- C1 (witness): the empty-phrase implication of the theorem applied at
a concrete input. -/
theorem validate_yoast_score_validity_witness :
    (validate_yoast_green_criteria "Titulo" "Meta" "<p>corpo</p>" "").is_valid = false :=
  (validate_yoast_score_validity "Titulo" "Meta" "<p>corpo</p>" "").2.2 rfl

/-! ### `SEOOptimizer.optimize_article`
(src/generator/seo_optimizer.py, lines 45–100) -/

/-- The dict-shaped article record handled by `optimize_article`:
optional fields mirror `'key' in article_data`.  The structured-data and
score payloads are modelled as opaque strings (their content never
influences the orchestration). -/
structure ArticleRec where
  titulo : Option String := none
  meta_descricao : Option String := none
  conteudo : Option String := none
  tags : Option (List String) := none
  produto_nome : Option String := none
  primary_keyword : Option String := none
  slug : Option String := none
  seo_data : Option String := none
  yoast_score : Option String := none
deriving DecidableEq, Repr

/-- The internal optimization steps called inside the `try` block of
`optimize_article`, abstracted as fallible functions (`.error` models a
raised exception): the claim under scrutiny is about the orchestration's
error handling, which is independent of the step bodies. -/
structure SEOSteps where
  extract_primary_keyword : ArticleRec → Except Unit String
  optimize_title : String → String → Except Unit String
  generate_slug : String → String → Except Unit String
  optimize_meta : String → String → Except Unit String
  generate_meta : String → String → Except Unit String
  optimize_content : String → String → Except Unit String
  optimize_tags : List String → String → Except Unit (List String)
  generate_structured : ArticleRec → Except Unit String
  calc_score : ArticleRec → Except Unit String

/-- The body of the `try` block of `optimize_article` (seo_optimizer.py,
lines 55–96): copy the record, then update field by field in the source's
order, propagating the first exception. -/
def runOptimize (st : SEOSteps) (a : ArticleRec) : Except Unit ArticleRec := do
  let optimized := a
  let pk ← st.extract_primary_keyword optimized
  let optimized := { optimized with primary_keyword := some pk }
  let optimized ← match optimized.titulo with
    | some t => do
      let t2 ← st.optimize_title t pk
      pure { optimized with titulo := some t2 }
    | none => pure optimized
  let slug ← st.generate_slug (optimized.titulo.getD "") pk
  let optimized := { optimized with slug := some slug }
  let optimized ← match optimized.meta_descricao with
    | some m => do
      let m2 ← st.optimize_meta m pk
      pure { optimized with meta_descricao := some m2 }
    | none =>
      match optimized.conteudo with
      | some c => do
        let m2 ← st.generate_meta c pk
        pure { optimized with meta_descricao := some m2 }
      | none => pure optimized
  let optimized ← match optimized.conteudo with
    | some c => do
      let c2 ← st.optimize_content c pk
      pure { optimized with conteudo := some c2 }
    | none => pure optimized
  let optimized ← match optimized.tags with
    | some tg => do
      let tg2 ← st.optimize_tags tg pk
      pure { optimized with tags := some tg2 }
    | none => pure optimized
  let sd ← st.generate_structured optimized
  let optimized := { optimized with seo_data := some sd }
  let ys ← st.calc_score optimized
  pure { optimized with yoast_score := some ys }

/-- `optimize_article(article_data)` (seo_optimizer.py, lines 45–100):
the whole pipeline runs inside `try`; `except Exception` returns the
original `article_data` (the steps operated on a copy, so no partial
update is visible).  The function is total: it never raises. -/
def optimize_article (st : SEOSteps) (a : ArticleRec) : ArticleRec :=
  match runOptimize st a with
  | .ok r => r
  | .error _ => a

/-! ### Theorems for claim C10 -/

/-- C10: `optimize_article` is total (its Lean type is `ArticleRec`, the
`except Exception` branch catches every step failure), and whenever any
internal step raises — wherever in the pipeline the first failure occurs
— the original input record is returned unchanged, with no partially
optimized field visible; when no step raises, the fully optimized record
is returned. -/
theorem optimize_article_error_handling (st : SEOSteps) (a : ArticleRec) :
    (∀ e : Unit, runOptimize st a = .error e → optimize_article st a = a) ∧
      (∀ r : ArticleRec, runOptimize st a = .ok r → optimize_article st a = r) := by
  constructor
  · intro e herr
    unfold optimize_article
    rw [herr]
  · intro r hok
    unfold optimize_article
    rw [hok]

/-- A step assignment in which the content-readability pass raises and
every other step succeeds, used to witness the error-handling theorem. -/
def failingContentSteps : SEOSteps where
  extract_primary_keyword := fun _ => .ok "impressora hp"
  optimize_title := fun t _ => .ok t
  generate_slug := fun _ _ => .ok "impressora-hp"
  optimize_meta := fun m _ => .ok m
  generate_meta := fun _ _ => .ok "meta"
  optimize_content := fun _ _ => .error ()
  optimize_tags := fun tg _ => .ok tg
  generate_structured := fun _ => .ok "structured"
  calc_score := fun _ => .ok "score"

/-- C10 (witness): with the content pass raising mid-pipeline (after the
title, slug and meta fields were already recomputed on the copy), the
orchestrator still returns the input record unchanged. -/
theorem optimize_article_error_handling_witness :
    optimize_article failingContentSteps
        { titulo := some "Impressora HP", conteudo := some "<p>corpo</p>" } =
      { titulo := some "Impressora HP", conteudo := some "<p>corpo</p>" } :=
  (optimize_article_error_handling failingContentSteps
      { titulo := some "Impressora HP", conteudo := some "<p>corpo</p>" }).1 () rfl

end CreativeIA
